import Mathlib

/-!
Shallow embedding of `trillium-prometheus` (`src/lib.rs`), a single-route
HTTP handler that exposes Prometheus metrics in the text exposition format.

The crate's own code is `text_format_handler`: it builds a router matching
`GET /metrics`; on each matched request it creates a fresh buffer and a fresh
`TextEncoder`, encodes `registry.gather()` into the buffer, and either
responds `200` with the buffer as body and `Content-Type` taken from
`encoder.format_type()`, or logs the error and responds `500`.

The `prometheus` crate (registry, gather, `TextEncoder`) is an external
dependency, not part of this repository; its behaviour is modelled from the
specification where claims depend on it (each such definition is marked
`Modelled from the spec:`).
-/

namespace TrilliumPrometheus

/-- The type tag of a metric family (counter, gauge, histogram, summary). -/
inductive MetricType
  | counter
  | gauge
  | histogram
  | summary
deriving DecidableEq

/-- One sample of a metric family: a label set and a numeric value.
Values are modelled as integers (covering `IntGauge` and friends); the
encoder renders them with `toString`. -/
structure Sample where
  labels : List (String × String)
  value : Int
deriving DecidableEq

/-- A named metric family: name, help text, type tag and samples. -/
structure MetricFamily where
  name : String
  help : String
  mtype : MetricType
  samples : List Sample
deriving DecidableEq

/-- The metric registry: a collection of metric families.  The registry is
owned by the embedding application; this crate only reads it. -/
structure Registry where
  families : List MetricFamily
deriving DecidableEq

/-- Modelled from the spec: `Registry::gather` takes a read-only point-in-time
snapshot of the metric families and has no side effect on the registry.  The
post-state of the registry is returned explicitly so that frame properties
can be stated. -/
def Registry.gather (r : Registry) : List MetricFamily × Registry :=
  (r.families, r)

/-- The text exposition encoder.  Fresh instances are created per request by
the handler (`TextEncoder::new()` in the source); it is stateless. -/
structure TextEncoder where
deriving DecidableEq

/-- `TextEncoder::new()`. -/
def TextEncoder.new : TextEncoder := {}

/-- Modelled from the spec: the format identifier the encoder reports for the
text exposition format (`encoder.format_type()`), e.g.
`text/plain; version=0.0.4; charset=utf-8`. -/
def TextEncoder.format_type (_ : TextEncoder) : String :=
  "text/plain; version=0.0.4; charset=utf-8"

/-- Render of a metric type tag in a `# TYPE` line. -/
def MetricType.str : MetricType → String
  | .counter => "counter"
  | .gauge => "gauge"
  | .histogram => "histogram"
  | .summary => "summary"

/-- Render of one `label="value"` pair. -/
def renderLabelPair (p : String × String) : String :=
  p.1 ++ "=\"" ++ p.2 ++ "\""

/-- Render of a label set: empty for no labels, otherwise
`\x7blabel="value",...\x7d`. -/
def renderLabels (ls : List (String × String)) : String :=
  if ls.isEmpty then ""
  else "\x7b" ++ String.intercalate "," (ls.map renderLabelPair) ++ "\x7d"

/-- Render of one sample line: `name[labels] value`, newline-terminated. -/
def renderSample (name : String) (s : Sample) : String :=
  name ++ renderLabels s.labels ++ " " ++ toString s.value ++ "\n"

/-- Modelled from the spec: each metric family emits a `# HELP` line, a
`# TYPE` line and one sample line per label combination, in the order given
by the gather snapshot. -/
def renderFamily (mf : MetricFamily) : String :=
  "# HELP " ++ mf.name ++ " " ++ mf.help ++ "\n" ++
  "# TYPE " ++ mf.name ++ " " ++ mf.mtype.str ++ "\n" ++
  String.join (mf.samples.map (renderSample mf.name))

/-- Modelled from the spec: the encoder rejects malformed internal metric
state.  A family with no samples or with an empty name cannot be serialized;
the returned string is the failure detail. -/
def checkMetricFamily (mf : MetricFamily) : Option String :=
  if mf.samples.isEmpty then some ("MetricFamily has no metrics: " ++ mf.name)
  else if mf.name.isEmpty then some "MetricFamily has no name"
  else none

/-- First encoding failure over the gathered families, if any. -/
def firstEncodeError : List MetricFamily → Option String
  | [] => none
  | mf :: rest =>
    match checkMetricFamily mf with
    | some e => some e
    | none => firstEncodeError rest

/-- Modelled from the spec: `encoder.encode(&families, &mut buffer)`.  On
success the serialized text is appended to the buffer and the final buffer is
returned; on failure the failure detail is returned and the buffer is
discarded by the caller. -/
def TextEncoder.encode (_ : TextEncoder) (families : List MetricFamily)
    (buffer : String) : Except String String :=
  match firstEncodeError families with
  | some e => Except.error e
  | none => Except.ok (buffer ++ String.join (families.map renderFamily))

/-- Severity of a diagnostic log event (`tracing` levels). -/
inductive LogLevel
  | error
  | warn
  | info
deriving DecidableEq

/-- One diagnostic log event: severity, the structured `error` field holding
the failure detail, and the message text. -/
structure LogEntry where
  level : LogLevel
  error : String
  message : String
deriving DecidableEq

/-- The observable HTTP response: status code, optional `Content-Type`
header, optional body.  `none` means the field was never set by the
handler. -/
structure Response where
  status : Nat
  contentType : Option String
  body : Option String
deriving DecidableEq

/-- HTTP request methods. -/
inductive Method
  | get
  | post
  | put
  | delete
  | head
  | options
  | patch
deriving DecidableEq

/-- An inbound HTTP request: method and path. -/
structure Request where
  method : Method
  path : String
deriving DecidableEq

/-- The body of the route closure in `text_format_handler`, for one matched
request: create a fresh empty buffer and a fresh encoder, gather, encode;
on `Ok` respond 200 with the buffer as body and `Content-Type` from
`encoder.format_type()` and emit no log; on `Err` log one error-severity
event carrying the failure detail and respond 500 with nothing else set.
The registry post-state is returned for frame reasoning. -/
def handleMetricsGet (registry : Registry) : (Response × List LogEntry) × Registry :=
  let buffer : String := ""
  let encoder : TextEncoder := TextEncoder.new
  let gathered := registry.gather
  match encoder.encode gathered.1 buffer with
  | Except.ok body =>
    (({ status := 200,
        contentType := some encoder.format_type,
        body := some body }, []), gathered.2)
  | Except.error e =>
    (({ status := 500, contentType := none, body := none },
      [{ level := LogLevel.error, error := e,
         message := "Failed to encode Prometheus metrics" }]), gathered.2)

/-- `text_format_handler(registry)`: a router that answers exactly the
requests with method GET and path `/metrics` (the route registered by
`Router::new().get("metrics", ...)`); any other request is not matched
(`none`) and is left to the surrounding router. -/
def text_format_handler (registry : Registry) (req : Request) :
    Option ((Response × List LogEntry) × Registry) :=
  if req.method = Method.get ∧ req.path = "/metrics" then
    some (handleMetricsGet registry)
  else
    none

/-- Registry state after one request: unchanged when the route does not
match, otherwise the post-state the handler returns. -/
def postRegistry (registry : Registry) (req : Request) : Registry :=
  match text_format_handler registry req with
  | some r => r.2
  | none => registry

/-- Two sequential invocations of the handler on the same request, the second
one against the registry state left by the first. -/
def runTwice (registry : Registry) (req : Request) :
    Option ((Response × List LogEntry) × Registry) ×
      Option ((Response × List LogEntry) × Registry) :=
  (text_format_handler registry req,
   text_format_handler (postRegistry registry req) req)

/-- A sequence of invocations, one per externally supplied registry state
(the registry may be mutated by the host between requests). -/
def runAll : List Registry → Request → List (Option ((Response × List LogEntry) × Registry))
  | [], _ => []
  | r :: rs, req => text_format_handler r req :: runAll rs req

/-- The registry of the test fixture family: a single gauge named `N` with
help text `H`, no labels, value `V`. -/
def singleGaugeRegistry (N H : String) (V : Int) : Registry :=
  ⟨[{ name := N, help := H, mtype := MetricType.gauge,
      samples := [{ labels := [], value := V }] }]⟩

/-- The canonical `GET /metrics` request. -/
def getMetrics : Request :=
  { method := Method.get, path := "/metrics" }

/-- The registry the handler leaves behind is the registry it was given:
gathering is read-only. -/
theorem handleMetricsGet_post (registry : Registry) :
    (handleMetricsGet registry).2 = registry := by
  simp only [handleMetricsGet, Registry.gather]
  cases TextEncoder.new.encode registry.families "" <;> rfl

/-- After any request, matched or not, the registry is unchanged. -/
theorem postRegistry_eq (registry : Registry) (req : Request) :
    postRegistry registry req = registry := by
  unfold postRegistry text_format_handler
  by_cases h : req.method = Method.get ∧ req.path = "/metrics"
  · rw [if_pos h]
    exact handleMetricsGet_post registry
  · rw [if_neg h]

example :
    text_format_handler (singleGaugeRegistry "my_gauge" "Test fixture" 5) getMetrics =
      some ((⟨200, some "text/plain; version=0.0.4; charset=utf-8",
        some "# HELP my_gauge Test fixture\n# TYPE my_gauge gauge\nmy_gauge 5\n"⟩, []),
        singleGaugeRegistry "my_gauge" "Test fixture" 5) := by
  decide

example :
    text_format_handler (Registry.mk []) getMetrics =
      some ((⟨200, some "text/plain; version=0.0.4; charset=utf-8", some ""⟩, []),
        Registry.mk []) := by
  decide

example :
    text_format_handler (Registry.mk [⟨"bad", "h", MetricType.gauge, []⟩]) getMetrics =
      some ((⟨500, none, none⟩,
        [⟨LogLevel.error, "MetricFamily has no metrics: bad",
          "Failed to encode Prometheus metrics"⟩]),
        Registry.mk [⟨"bad", "h", MetricType.gauge, []⟩]) := by
  decide

example :
    text_format_handler (singleGaugeRegistry "g" "h" 1) { method := Method.post, path := "/metrics" } = none := by
  decide

/-- C1: when the route matches (GET on the metrics path) and the text encoder
successfully serializes the gathered metric families into the fresh buffer,
the handler responds with status 200, body exactly the bytes the encoder
produced, and `Content-Type` exactly `encoder.format_type()` — the same
definition the encoder reports, not a separately hard-coded string. -/
theorem handler_success_response (registry : Registry) (req : Request) (b : String)
    (hm : req.method = Method.get) (hp : req.path = "/metrics")
    (henc : TextEncoder.new.encode (registry.gather).1 "" = Except.ok b) :
    text_format_handler registry req =
      some (({ status := 200,
               contentType := some (TextEncoder.new.format_type),
               body := some b }, []), registry) := by
  have hcond : req.method = Method.get ∧ req.path = "/metrics" := ⟨hm, hp⟩
  simp only [Registry.gather] at henc
  simp only [text_format_handler, if_pos hcond, handleMetricsGet, Registry.gather, henc]

/-- Witness for C1: the empty registry encodes to the empty string, and the
handler responds 200 with that body and the encoder's format identifier. -/
theorem handler_success_response_witness :
    TextEncoder.new.encode ((Registry.mk []).gather).1 "" = Except.ok "" ∧
    text_format_handler (Registry.mk []) getMetrics =
      some (({ status := 200,
               contentType := some (TextEncoder.new.format_type),
               body := some "" }, []), Registry.mk []) :=
  ⟨rfl, handler_success_response (Registry.mk []) getMetrics "" rfl rfl rfl⟩

/-- C2: when the route matches and the text encoder fails, the handler
records exactly one diagnostic event at error severity carrying the failure
detail, and responds with status 500 and no metrics body; the result is an
ordinary response (the error is recovered at the handler boundary, never
propagated), and the encoding is not retried. -/
theorem handler_failure_response (registry : Registry) (req : Request) (e : String)
    (hm : req.method = Method.get) (hp : req.path = "/metrics")
    (henc : TextEncoder.new.encode (registry.gather).1 "" = Except.error e) :
    text_format_handler registry req =
      some (({ status := 500, contentType := none, body := none },
        [{ level := LogLevel.error, error := e,
           message := "Failed to encode Prometheus metrics" }]), registry) := by
  have hcond : req.method = Method.get ∧ req.path = "/metrics" := ⟨hm, hp⟩
  simp only [Registry.gather] at henc
  simp only [text_format_handler, if_pos hcond, handleMetricsGet, Registry.gather, henc]

/-- Witness for C2: a registry holding a family with no samples makes the
encoder fail; the handler logs the detail and responds 500. -/
theorem handler_failure_response_witness :
    TextEncoder.new.encode ((Registry.mk [⟨"bad", "h", MetricType.gauge, []⟩]).gather).1 "" =
      Except.error "MetricFamily has no metrics: bad" ∧
    text_format_handler (Registry.mk [⟨"bad", "h", MetricType.gauge, []⟩]) getMetrics =
      some (({ status := 500, contentType := none, body := none },
        [{ level := LogLevel.error, error := "MetricFamily has no metrics: bad",
           message := "Failed to encode Prometheus metrics" }]),
        Registry.mk [⟨"bad", "h", MetricType.gauge, []⟩]) :=
  ⟨rfl,
   handler_failure_response (Registry.mk [⟨"bad", "h", MetricType.gauge, []⟩]) getMetrics
     "MetricFamily has no metrics: bad" rfl rfl rfl⟩

/-- C3: the router matches a request exactly when its method is GET and its
path is the configured metrics path `/metrics`; every other method or path is
not matched and produces no outcome from this logic. -/
theorem handler_routes_get_metrics_only (registry : Registry) (req : Request) :
    (text_format_handler registry req).isSome = true ↔
      req.method = Method.get ∧ req.path = "/metrics" := by
  by_cases h : req.method = Method.get ∧ req.path = "/metrics" <;>
    simp [text_format_handler, h]

/-- C4: issuing the same request twice, the second time against the registry
state left by the first invocation, yields identical responses (same status,
same Content-Type, same body bytes): the first invocation leaves the registry
unchanged and the handler is deterministic in the registry state. -/
theorem handler_idempotent (registry : Registry) (req : Request) :
    (runTwice registry req).1 = (runTwice registry req).2 := by
  unfold runTwice
  rw [postRegistry_eq]

/-- C6: on a registry with zero metric families, gathering and encoding
succeed and a handled GET to the metrics path responds 200 with an empty
body. -/
theorem empty_registry_ok (req : Request)
    (hm : req.method = Method.get) (hp : req.path = "/metrics") :
    text_format_handler (Registry.mk []) req =
      some (({ status := 200,
               contentType := some (TextEncoder.new.format_type),
               body := some "" }, []), Registry.mk []) := by
  have hcond : req.method = Method.get ∧ req.path = "/metrics" := ⟨hm, hp⟩
  rw [text_format_handler, if_pos hcond]
  decide

/-- Witness for C6: the canonical GET `/metrics` request on the empty
registry. -/
theorem empty_registry_ok_witness :
    text_format_handler (Registry.mk []) getMetrics =
      some (({ status := 200,
               contentType := some (TextEncoder.new.format_type),
               body := some "" }, []), Registry.mk []) :=
  empty_registry_ok getMetrics rfl rfl

/-- C9: on the encoding-failure path the response carries no Content-Type
header and no body at all — the failure branch only sets the 500 status, so
neither partial metrics bytes nor a format identifier reach the client. -/
theorem failure_sets_nothing_but_status (registry : Registry) (e : String)
    (henc : TextEncoder.new.encode (registry.gather).1 "" = Except.error e) :
    (handleMetricsGet registry).1.1.contentType = none ∧
    (handleMetricsGet registry).1.1.body = none ∧
    (handleMetricsGet registry).1.1.status = 500 := by
  simp only [Registry.gather] at henc
  simp [handleMetricsGet, Registry.gather, henc]

/-- Witness for C9: the no-sample registry takes the failure branch and its
response has no Content-Type and no body. -/
theorem failure_sets_nothing_but_status_witness :
    TextEncoder.new.encode ((Registry.mk [⟨"bad", "h", MetricType.gauge, []⟩]).gather).1 "" =
      Except.error "MetricFamily has no metrics: bad" ∧
    (handleMetricsGet (Registry.mk [⟨"bad", "h", MetricType.gauge, []⟩])).1.1.contentType = none ∧
    (handleMetricsGet (Registry.mk [⟨"bad", "h", MetricType.gauge, []⟩])).1.1.body = none ∧
    (handleMetricsGet (Registry.mk [⟨"bad", "h", MetricType.gauge, []⟩])).1.1.status = 500 :=
  ⟨rfl,
   failure_sets_nothing_but_status (Registry.mk [⟨"bad", "h", MetricType.gauge, []⟩])
     "MetricFamily has no metrics: bad" rfl⟩

/-- The route matches: the handler runs the closure body. -/
theorem text_format_handler_matched (registry : Registry) (req : Request)
    (hm : req.method = Method.get) (hp : req.path = "/metrics") :
    text_format_handler registry req = some (handleMetricsGet registry) :=
  if_pos ⟨hm, hp⟩

/-- Success-path computation of the closure body. -/
theorem handleMetricsGet_ok (registry : Registry) (b : String)
    (henc : TextEncoder.new.encode registry.families "" = Except.ok b) :
    handleMetricsGet registry =
      (({ status := 200,
          contentType := some (TextEncoder.new.format_type),
          body := some b }, []), registry) := by
  simp only [handleMetricsGet, Registry.gather, henc]

/-- Failure-path computation of the closure body. -/
theorem handleMetricsGet_err (registry : Registry) (e : String)
    (henc : TextEncoder.new.encode registry.families "" = Except.error e) :
    handleMetricsGet registry =
      (({ status := 500, contentType := none, body := none },
        [{ level := LogLevel.error, error := e,
           message := "Failed to encode Prometheus metrics" }]), registry) := by
  simp only [handleMetricsGet, Registry.gather, henc]

/-- Joining a one-element list of strings is that string. -/
theorem join_singleton (s : String) : String.join [s] = s := by
  simp [String.join]

/-- Encoding the single-gauge registry: the three expected lines. -/
theorem singleGauge_encode (N H : String) (V : Int) (hN : N ≠ "") :
    TextEncoder.new.encode (singleGaugeRegistry N H V).families "" =
      Except.ok ("# HELP " ++ N ++ " " ++ H ++ "\n" ++ "# TYPE " ++ N ++ " " ++ "gauge" ++
        "\n" ++ N ++ " " ++ toString V ++ "\n") := by
  have hNe : N.isEmpty = false := by
    cases h : N.isEmpty
    · rfl
    · exact absurd (String.isEmpty_iff .. |>.mp h) hN
  simp [TextEncoder.encode, firstEncodeError, checkMetricFamily, singleGaugeRegistry,
    renderFamily, renderSample, renderLabels, MetricType.str, join_singleton, hNe,
    String.append_assoc]

/-- C5: for every registry holding a single gauge named `N` with help `H` and
value `V` (names are nonempty in a real registry), a handled GET to the
metrics path returns status 200 and a body that is exactly the lines
`# HELP N H`, `# TYPE N gauge` and `N V` in that order; the concrete
`my_gauge`/`Test fixture`/`5` instance is checked in the witness. -/
theorem single_gauge_response (N H : String) (V : Int) (hN : N ≠ "")
    (req : Request) (hm : req.method = Method.get) (hp : req.path = "/metrics") :
    text_format_handler (singleGaugeRegistry N H V) req =
      some (({ status := 200,
               contentType := some (TextEncoder.new.format_type),
               body := some ("# HELP " ++ N ++ " " ++ H ++ "\n" ++ "# TYPE " ++ N ++ " " ++
                 "gauge" ++ "\n" ++ N ++ " " ++ toString V ++ "\n") }, []),
        singleGaugeRegistry N H V) := by
  rw [text_format_handler_matched _ _ hm hp,
    handleMetricsGet_ok _ _ (singleGauge_encode N H V hN)]

/-- Witness for C5: the test fixture — one `IntGauge` named `my_gauge`, help
`Test fixture`, value 5 — yields status 200 and a body beginning
`# HELP my_gauge Test fixture\n# TYPE my_gauge gauge\nmy_gauge 5`. -/
theorem single_gauge_response_witness :
    text_format_handler (singleGaugeRegistry "my_gauge" "Test fixture" 5) getMetrics =
      some (({ status := 200,
               contentType := some (TextEncoder.new.format_type),
               body := some ("# HELP " ++ "my_gauge" ++ " " ++ "Test fixture" ++ "\n" ++
                 "# TYPE " ++ "my_gauge" ++ " " ++ "gauge" ++ "\n" ++ "my_gauge" ++ " " ++
                 toString (5 : Int) ++ "\n") }, []),
        singleGaugeRegistry "my_gauge" "Test fixture" 5) ∧
    ("# HELP " ++ "my_gauge" ++ " " ++ "Test fixture" ++ "\n" ++ "# TYPE " ++ "my_gauge" ++
        " " ++ "gauge" ++ "\n" ++ "my_gauge" ++ " " ++ toString (5 : Int) ++ "\n") =
      "# HELP my_gauge Test fixture\n# TYPE my_gauge gauge\nmy_gauge 5" ++ "\n" :=
  ⟨single_gauge_response "my_gauge" "Test fixture" 5 (by decide) getMetrics rfl rfl,
   by decide⟩

/-- C7: the handler never mutates the registry — after any request, matched
or not, the registry state is the one it started with — and the only side
effect besides the response is the diagnostic log: no log entry on the
success path, exactly one error-severity entry on the failure path. -/
theorem handler_no_mutation (registry : Registry) (req : Request) :
    postRegistry registry req = registry ∧
    (handleMetricsGet registry).2 = registry ∧
    (((handleMetricsGet registry).1.1.status = 200 ∧ (handleMetricsGet registry).1.2 = []) ∨
     ((handleMetricsGet registry).1.1.status = 500 ∧ ∃ e,
        (handleMetricsGet registry).1.2 =
          [{ level := LogLevel.error, error := e,
             message := "Failed to encode Prometheus metrics" }])) := by
  refine ⟨postRegistry_eq registry req, handleMetricsGet_post registry, ?_⟩
  cases henc : TextEncoder.new.encode registry.families "" with
  | ok b =>
    left
    rw [handleMetricsGet_ok registry b henc]
    exact ⟨rfl, rfl⟩
  | error e =>
    right
    rw [handleMetricsGet_err registry e henc]
    exact ⟨rfl, e, rfl⟩

/-- C10: invocations are independent and each starts from a fresh empty
buffer and fresh encoder: the i-th response of any invocation sequence is a
function of the i-th registry state alone, and whenever encoding succeeds the
body is exactly the serialization of that request's own gather result — the
buffer contributes no leading residue. -/
theorem fresh_buffer_and_independence :
    (∀ (regs : List Registry) (req : Request) (i : Nat),
       (runAll regs req).get? i = (regs.get? i).map (fun r => text_format_handler r req)) ∧
    (∀ (registry : Registry) (b : String),
       TextEncoder.new.encode (registry.gather).1 "" = Except.ok b →
       b = String.join ((registry.gather).1.map renderFamily) ∧
       (handleMetricsGet registry).1.1.body =
         some (String.join ((registry.gather).1.map renderFamily))) := by
  constructor
  · intro regs req
    induction regs with
    | nil => intro i; cases i <;> rfl
    | cons r rs ih =>
      intro i
      cases i with
      | zero => rfl
      | succ j => exact ih j
  · intro registry b henc
    simp only [Registry.gather] at henc ⊢
    have hb : b = String.join (registry.families.map renderFamily) := by
      rw [TextEncoder.encode] at henc
      cases hfe : firstEncodeError registry.families with
      | some e => rw [hfe] at henc; cases henc
      | none =>
        rw [hfe] at henc
        have := henc
        simp only [Except.ok.injEq] at this
        rw [← this, String.empty_append]
    refine ⟨hb, ?_⟩
    rw [handleMetricsGet_ok registry b henc, ← hb]

/-- Witness for C10: the single-gauge fixture, first element of a run, and
its successful encoding with no buffer residue. -/
theorem fresh_buffer_and_independence_witness :
    (runAll [Registry.mk []] getMetrics).get? 0 =
      ([Registry.mk []].get? 0).map (fun r => text_format_handler r getMetrics) ∧
    (handleMetricsGet (Registry.mk [])).1.1.body =
      some (String.join (((Registry.mk [] : Registry).gather).1.map renderFamily)) :=
  ⟨fresh_buffer_and_independence.1 [Registry.mk []] getMetrics 0,
   (fresh_buffer_and_independence.2 (Registry.mk []) "" rfl).2⟩

/-- The character list `Nat.repr` produces: decimal digits, most significant
first. -/
def natRepr (n : Nat) : List Char :=
  if _h : n < 10 then [Nat.digitChar n]
  else natRepr (n / 10) ++ [Nat.digitChar (n % 10)]
decreasing_by exact Nat.div_lt_self (by omega) (by decide)

/-- Unfolding of `natRepr` on one-digit numbers. -/
theorem natRepr_small {n : Nat} (h : n < 10) : natRepr n = [Nat.digitChar n] := by
  rw [natRepr, dif_pos h]

/-- Unfolding of `natRepr` on multi-digit numbers. -/
theorem natRepr_large {n : Nat} (h : ¬ n < 10) :
    natRepr n = natRepr (n / 10) ++ [Nat.digitChar (n % 10)] := by
  rw [natRepr, dif_neg h]

/-- `natRepr` is never empty. -/
theorem natRepr_ne_nil (n : Nat) : natRepr n ≠ [] := by
  by_cases h : n < 10
  · rw [natRepr_small h]; simp
  · rw [natRepr_large h]; simp

/-- The accumulator of `Nat.toDigitsCore` is a suffix of its output. -/
theorem toDigitsCore_shift (f : Nat) :
    ∀ (n : Nat) (ds : List Char),
      Nat.toDigitsCore 10 f n ds = Nat.toDigitsCore 10 f n [] ++ ds := by
  induction f with
  | zero => intro n ds; simp [Nat.toDigitsCore]
  | succ f ih =>
    intro n ds
    simp only [Nat.toDigitsCore]
    by_cases h : n / 10 = 0
    · simp [h]
    · simp only [if_neg h]
      rw [ih (n / 10) (Nat.digitChar (n % 10) :: ds),
        ih (n / 10) [Nat.digitChar (n % 10)]]
      simp

/-- With enough fuel, `Nat.toDigitsCore` computes `natRepr`. -/
theorem toDigitsCore_eq_natRepr (f : Nat) :
    ∀ n, n < f → Nat.toDigitsCore 10 f n [] = natRepr n := by
  induction f with
  | zero => intro n h; exact absurd h (Nat.not_lt_zero n)
  | succ f ih =>
    intro n h
    simp only [Nat.toDigitsCore]
    by_cases h0 : n / 10 = 0
    · rw [if_pos h0, natRepr_small (show n < 10 by omega)]
      have hmod : n % 10 = n := by omega
      rw [hmod]
    · rw [if_neg h0, toDigitsCore_shift, ih (n / 10) (by omega),
        natRepr_large (show ¬ n < 10 by omega)]

/-- `Nat.repr` is `natRepr`, packed as a string. -/
theorem repr_eq_natRepr (n : Nat) : Nat.repr n = (natRepr n).asString := by
  unfold Nat.repr Nat.toDigits
  rw [toDigitsCore_eq_natRepr (n + 1) n (Nat.lt_succ_self n)]

/-- `Nat.digitChar` is injective below 10. -/
theorem digitChar_inj_lt :
    ∀ a, a < 10 → ∀ b, b < 10 → Nat.digitChar a = Nat.digitChar b → a = b := by
  decide

/-- No decimal digit character is the minus sign. -/
theorem digitChar_ne_dash : ∀ d, d < 10 → Nat.digitChar d ≠ '-' := by
  decide

/-- `natRepr` starts with a digit character. -/
theorem natRepr_head_digit (n : Nat) :
    ∃ d, d < 10 ∧ ∃ t, natRepr n = Nat.digitChar d :: t := by
  induction n using Nat.strong_induction_on with
  | _ n ih =>
    by_cases h : n < 10
    · exact ⟨n, h, [], natRepr_small h⟩
    · obtain ⟨d, hd, t, ht⟩ := ih (n / 10) (Nat.div_lt_self (by omega) (by decide))
      refine ⟨d, hd, t ++ [Nat.digitChar (n % 10)], ?_⟩
      rw [natRepr_large h, ht]
      rfl

/-- `natRepr` is injective. -/
theorem natRepr_inj : ∀ m n : Nat, natRepr m = natRepr n → m = n := by
  intro m
  induction m using Nat.strong_induction_on with
  | _ m ih =>
    intro n h
    by_cases hm : m < 10 <;> by_cases hn : n < 10
    · rw [natRepr_small hm, natRepr_small hn] at h
      simp only [List.cons.injEq, and_true] at h
      exact digitChar_inj_lt m hm n hn h
    · rw [natRepr_small hm, natRepr_large hn] at h
      cases hx : natRepr (n / 10) with
      | nil => exact absurd hx (natRepr_ne_nil _)
      | cons a t => rw [hx] at h; simp at h
    · rw [natRepr_large hm, natRepr_small hn] at h
      cases hx : natRepr (m / 10) with
      | nil => exact absurd hx (natRepr_ne_nil _)
      | cons a t => rw [hx] at h; simp at h
    · rw [natRepr_large hm, natRepr_large hn] at h
      obtain ⟨h1, h2⟩ := List.append_inj' h (by simp)
      simp only [List.cons.injEq, and_true] at h2
      have hmod : m % 10 = n % 10 :=
        digitChar_inj_lt (m % 10) (by omega) (n % 10) (by omega) h2
      have hdiv : m / 10 = n / 10 :=
        ih (m / 10) (Nat.div_lt_self (by omega) (by decide)) (n / 10) h1
      omega

/-- `Nat.repr` is injective. -/
theorem nat_repr_inj {m n : Nat} (h : Nat.repr m = Nat.repr n) : m = n := by
  rw [repr_eq_natRepr, repr_eq_natRepr] at h
  exact natRepr_inj m n (congrArg String.data h)

/-- `toString` on integers is injective: distinct values render as distinct
strings. -/
theorem int_toString_inj {a b : Int} (h : toString a = toString b) : a = b := by
  cases a with
  | ofNat m =>
    cases b with
    | ofNat n => exact congrArg Int.ofNat (nat_repr_inj (h : Nat.repr m = Nat.repr n))
    | negSucc n =>
      exfalso
      have h1 : natRepr m = '-' :: (Nat.repr (n + 1)).data := by
        have hc : Nat.repr m = "-" ++ Nat.repr (n + 1) := h
        have hd := congrArg String.data hc
        rw [repr_eq_natRepr] at hd
        exact hd
      obtain ⟨d, hdlt, t, ht⟩ := natRepr_head_digit m
      rw [ht] at h1
      injection h1 with h2 _
      exact digitChar_ne_dash d hdlt h2
  | negSucc m =>
    cases b with
    | ofNat n =>
      exfalso
      have h1 : natRepr n = '-' :: (Nat.repr (m + 1)).data := by
        have hc : Nat.repr n = "-" ++ Nat.repr (m + 1) := h.symm
        have hd := congrArg String.data hc
        rw [repr_eq_natRepr] at hd
        exact hd
      obtain ⟨d, hdlt, t, ht⟩ := natRepr_head_digit n
      rw [ht] at h1
      injection h1 with h2 _
      exact digitChar_ne_dash d hdlt h2
    | negSucc n =>
      have hc : ("-" ++ Nat.repr (m + 1) : String) = "-" ++ Nat.repr (n + 1) := h
      have h2 : ('-' :: (Nat.repr (m + 1)).data) = ('-' :: (Nat.repr (n + 1)).data) :=
        congrArg String.data hc
      injection h2 with _ h3
      have h4 : m + 1 = n + 1 := nat_repr_inj (String.ext h3)
      exact congrArg Int.negSucc (by omega : m = n)

/-- Distinct integers render as distinct strings. -/
theorem int_toString_ne {a b : Int} (h : a ≠ b) : toString a ≠ toString b :=
  fun he => h (int_toString_inj he)

/-- Appending different strings to the same prefix gives different strings. -/
theorem string_append_right_ne (p : String) {s t : String} (h : s ≠ t) :
    p ++ s ≠ p ++ t := by
  intro he
  apply h
  apply String.ext
  have hd := congrArg String.data he
  simp only [String.data_append] at hd
  exact List.append_cancel_left hd

/-- Appending the same suffix to different strings gives different strings. -/
theorem string_append_left_ne (c : String) {s t : String} (h : s ≠ t) :
    s ++ c ≠ t ++ c := by
  intro he
  apply h
  apply String.ext
  have hd := congrArg String.data he
  simp only [String.data_append] at hd
  exact List.append_cancel_right hd

/-- Joining a split list of strings splits the join. -/
theorem join_append (l1 l2 : List String) :
    String.join (l1 ++ l2) = String.join l1 ++ String.join l2 := by
  apply String.ext
  simp [String.join_eq, String.data_append]

/-- Joining a cons of strings peels off the head. -/
theorem join_cons (s : String) (l : List String) :
    String.join (s :: l) = s ++ String.join l := by
  apply String.ext
  simp [String.join_eq, String.data_append]

/-- The serialized body of a family list, split around one family. -/
theorem body_split (pre suf : List MetricFamily) (mf : MetricFamily) :
    String.join ((pre ++ mf :: suf).map renderFamily) =
      String.join (pre.map renderFamily) ++
        (renderFamily mf ++ String.join (suf.map renderFamily)) := by
  rw [List.map_append, List.map_cons, join_append, join_cons]

/-- Two family lists differing in one family serialize differently. -/
theorem join_families_ne (pre suf : List MetricFamily) {mf mf' : MetricFamily}
    (h : renderFamily mf ≠ renderFamily mf') :
    String.join ((pre ++ mf :: suf).map renderFamily) ≠
      String.join ((pre ++ mf' :: suf).map renderFamily) := by
  rw [body_split, body_split]
  exact string_append_right_ne _ (string_append_left_ne _ h)

/-- Encoding with no failing family yields the joined serialization. -/
theorem encode_of_no_error (fams : List MetricFamily)
    (h : firstEncodeError fams = none) :
    TextEncoder.new.encode fams "" =
      Except.ok (String.join (fams.map renderFamily)) := by
  simp [TextEncoder.encode, h]

/-- A registry with one designated sample: `pre`/`suf` are the surrounding
families, `spre`/`ssuf` the surrounding samples of the designated family, and
the designated sample (with the given label set) carries the given value. -/
def registryWithValue (pre suf : List MetricFamily) (name help : String)
    (mtype : MetricType) (spre ssuf : List Sample)
    (labels : List (String × String)) (v : Int) : Registry :=
  ⟨pre ++ { name := name,
            help := help,
            mtype := mtype,
            samples := spre ++ { labels := labels, value := v } :: ssuf } :: suf⟩

/-- Whether encoding fails does not depend on the mutated sample value: the
encoder's well-formedness checks look only at names and sample counts. -/
theorem firstEncodeError_value_indep (pre suf : List MetricFamily)
    (name help : String) (mtype : MetricType) (spre ssuf : List Sample)
    (labels : List (String × String)) (v v' : Int) :
    firstEncodeError (registryWithValue pre suf name help mtype spre ssuf labels v).families =
      firstEncodeError (registryWithValue pre suf name help mtype spre ssuf labels v').families := by
  simp only [registryWithValue]
  induction pre with
  | nil =>
    have h1 : (spre ++ ({ labels := labels, value := v } : Sample) :: ssuf).isEmpty = false := by
      cases spre <;> rfl
    have h2 : (spre ++ ({ labels := labels, value := v' } : Sample) :: ssuf).isEmpty = false := by
      cases spre <;> rfl
    simp [firstEncodeError, checkMetricFamily, h1, h2]
  | cons mf rest ih =>
    simp only [List.cons_append, firstEncodeError]
    cases checkMetricFamily mf with
    | some e => rfl
    | none => exact ih

/-- Mutating a sample's value changes that sample's rendered line. -/
theorem renderSample_ne (name : String) (labels : List (String × String))
    {v v' : Int} (hv : v ≠ v') :
    renderSample name { labels := labels, value := v } ≠
      renderSample name { labels := labels, value := v' } := by
  unfold renderSample
  apply string_append_left_ne "\n"
  apply string_append_right_ne
  exact int_toString_ne hv

/-- Mutating one sample's value changes the family's rendered block. -/
theorem renderFamily_ne (name help : String) (mtype : MetricType)
    (spre ssuf : List Sample) (labels : List (String × String))
    {v v' : Int} (hv : v ≠ v') :
    renderFamily { name := name,
                   help := help,
                   mtype := mtype,
                   samples := spre ++ { labels := labels, value := v } :: ssuf } ≠
      renderFamily { name := name,
                     help := help,
                     mtype := mtype,
                     samples := spre ++ { labels := labels, value := v' } :: ssuf } := by
  unfold renderFamily
  apply string_append_right_ne
  rw [List.map_append, List.map_cons, join_append, join_cons,
    List.map_append, List.map_cons, join_append, join_cons]
  apply string_append_right_ne
  apply string_append_left_ne
  exact renderSample_ne name labels hv

/-- C8: for every registered metric — any sample, with any label set, of any
family, of any type, at any position in any registry — mutating its value
between two handled GET requests changes the value reported in the second
response: the second response's body is the serialization of the registry
state at its own gather (never a stale cache), and it differs from the first
response's body whenever the value changed. -/
theorem second_scrape_reflects_mutation (pre suf : List MetricFamily)
    (name help : String) (mtype : MetricType) (spre ssuf : List Sample)
    (labels : List (String × String)) (v v' : Int) (hv : v ≠ v')
    (henc : firstEncodeError
      (registryWithValue pre suf name help mtype spre ssuf labels v').families = none) :
    (handleMetricsGet (registryWithValue pre suf name help mtype spre ssuf labels v')).1.1.body =
      some (String.join
        (((registryWithValue pre suf name help mtype spre ssuf labels v').gather).1.map
          renderFamily)) ∧
    (handleMetricsGet (registryWithValue pre suf name help mtype spre ssuf labels v')).1.1.body ≠
      (handleMetricsGet (registryWithValue pre suf name help mtype spre ssuf labels v)).1.1.body := by
  have henc2 : firstEncodeError
      (registryWithValue pre suf name help mtype spre ssuf labels v).families = none := by
    rw [firstEncodeError_value_indep pre suf name help mtype spre ssuf labels v v']
    exact henc
  have e1 := encode_of_no_error _ henc
  have e2 := encode_of_no_error _ henc2
  constructor
  · rw [handleMetricsGet_ok _ _ e1]
    rfl
  · rw [handleMetricsGet_ok _ _ e1, handleMetricsGet_ok _ _ e2]
    intro he
    exact join_families_ne pre suf
      (renderFamily_ne name help mtype spre ssuf labels (Ne.symm hv))
      (Option.some.inj he)

/-- Witness for C8: mutating `my_gauge` from 5 to 7 between two scrapes
changes the reported body. -/
theorem second_scrape_reflects_mutation_witness :
    (handleMetricsGet
        (registryWithValue [] [] "my_gauge" "Test fixture" MetricType.gauge [] [] [] 7)).1.1.body =
      some (String.join
        (((registryWithValue [] [] "my_gauge" "Test fixture" MetricType.gauge [] [] [] 7).gather).1.map
          renderFamily)) ∧
    (handleMetricsGet
        (registryWithValue [] [] "my_gauge" "Test fixture" MetricType.gauge [] [] [] 7)).1.1.body ≠
      (handleMetricsGet
        (registryWithValue [] [] "my_gauge" "Test fixture" MetricType.gauge [] [] [] 5)).1.1.body :=
  second_scrape_reflects_mutation [] [] "my_gauge" "Test fixture" MetricType.gauge [] [] []
    5 7 (by decide) (by decide)

end TrilliumPrometheus
